import Mathlib

/-!
Verification of the type-model extraction engine in parse/getast.go
(package parse of chrislusf/truepack).

The Go functions are embedded shallowly:

* Go's ast.Expr is modelled by the inductive type Expr, keeping exactly the
  shapes parseExpr distinguishes (Ident, MapType, ArrayType, StarExpr,
  StructType, InterfaceType) plus a constructor for every other shape
  (ChanType, FuncType, SelectorExpr, ...), which parseExpr sends to its
  default branch.  An ast.Field is a triple of its name list, its resolved
  tag value, and its type; an ast.FieldList is a list of such triples.
* gen.Elem is modelled by Elem; a gen.StructField is a triple
  (FieldTag, FieldName, FieldElem) where FieldElem is an Option because the
  Go field holds a possibly-nil interface value.
* A nil gen.Elem result is Option.none; a Go runtime panic (the unchecked
  type assertion in the map case of parseExpr) is Except.error ().  Every
  function that can reach that assertion returns in the Except monad.
-/

set_option maxHeartbeats 1000000

namespace Truepack

/-- The value enum of gen.BaseElem (gen.Float32 ... gen.MapStrIntf).
The IDENT case carries its name and is modelled by Elem.baseIdent below. -/
inductive BaseKind where
  | float32
  | float64
  | complex64
  | complex128
  | int
  | int8
  | int16
  | int32
  | int64
  | uint
  | uint8
  | uint16
  | uint32
  | uint64
  | string
  | bool
  | bytes
  | mapStrStr
  | mapStrIntf
  deriving DecidableEq, Repr

/-- Go ast.Expr, restricted to the shapes parseExpr distinguishes.
A field declaration is (names, tag, type): names is Field.Names, tag is the
value of the msg key of Field.Tag (Option.none when the field carries no tag
literal), type is Field.Type.  interfaceType stands for ast.InterfaceType
(the representation the Go parser produces for the empty interface type);
otherExpr stands for every remaining shape (channels, functions, selectors,
...), all of which reach the default branch of parseExpr. -/
inductive Expr where
  | ident (name : String)
  | mapType (key value : Expr)
  | arrayType (elt : Expr)
  | starExpr (x : Expr)
  | structType (fields : List (List String × Option String × Expr))
  | interfaceType
  | otherExpr
  deriving Repr

/-- gen.Elem: BaseElem (base kinds and IDENT), Slice, Ptr, Struct.
Slice.Els and Ptr.Value are Option because the Go fields hold possibly-nil
interface values; Struct carries its Name (empty for the anonymous structs
built inside parseExpr) and its Fields. -/
inductive Elem where
  | base (value : BaseKind)
  | baseIdent (name : String)
  | slice (els : Option Elem)
  | ptr (value : Option Elem)
  | struct (name : String) (fields : List (String × String × Option Elem))
  deriving Repr

/-- gen.StructField: (FieldTag, FieldName, FieldElem). -/
abbrev StructField := String × String × Option Elem

/-- A field declaration as handed to parseFieldList: (Names, msg tag, Type). -/
abbrev FieldDecl := List String × Option String × Expr

/-- The embedded-field name extraction of getast.go: an identifier gives its
name, a star defers to its operand, anything else gives the empty string. -/
def embedded : Expr → String
  | .ident name => name
  | .starExpr x => embedded x
  | _ => ""

/-- The tag steps of parseFieldList: FieldTag starts as the msg value of the
tag (empty when no tag literal is present); an empty FieldTag is replaced by
the field name; the literal value - skips the field (Option.none). -/
def tagStep (nm : String) (tag : Option String) : Option String :=
  let t := match tag with
    | some s => s
    | none => ""
  if t = "" then some nm
  else if t = "-" then none
  else some t

/-- The identifier table of parseExpr: known names map to their base kind,
every other identifier becomes an IDENT base element.  Every branch of the
Go switch returns a non-nil element. -/
def identElem : String → Elem
  | "float32" => .base .float32
  | "float64" => .base .float64
  | "complex128" => .base .complex128
  | "complex64" => .base .complex64
  | "int" => .base .int
  | "int8" => .base .int8
  | "int16" => .base .int16
  | "int32" => .base .int32
  | "int64" => .base .int64
  | "uint" => .base .uint
  | "uint8" => .base .uint8
  | "uint16" => .base .uint16
  | "uint32" => .base .uint32
  | "uint64" => .base .uint64
  | "string" => .base .string
  | "bool" => .base .bool
  | name => .baseIdent name

mutual

/-- parseExpr of getast.go.  Option.none is a nil gen.Elem (type not
supported); Except.error () is the runtime panic raised by the unchecked
type assertion Value.(ast.Ident) in the map case, which fires whenever the
key is the identifier string but the value expression is not an identifier. -/
def parseExpr : Expr → Except Unit (Option Elem)
  | .mapType key value =>
    match key with
    | .ident kname =>
      if kname = "string" then
        match value with
        | .ident vname =>
          if vname = "string" then .ok (some (.base .mapStrStr))
          else if vname = "interface\x7b\x7d" then .ok (some (.base .mapStrIntf))
          else .ok none
        | _ => .error ()
      else .ok none
    | _ => .ok none
  | .ident name => .ok (some (identElem name))
  | .arrayType elt =>
    match _h : elt with
    | .ident iname =>
      if iname = "byte" then .ok (some (.base .bytes))
      else
        match parseExpr (.ident iname) with
        | .error u => .error u
        | .ok inner => .ok (some (.slice inner))
    | _ =>
      match parseExpr elt with
      | .error u => .error u
      | .ok inner => .ok (some (.slice inner))
  | .starExpr x =>
    match parseExpr x with
    | .error u => .error u
    | .ok inner => .ok (some (.ptr inner))
  | .structType fields =>
    match parseFieldList fields with
    | .error u => .error u
    | .ok fs => .ok (some (.struct "" fs))
  | .interfaceType => .ok none
  | .otherExpr => .ok none
termination_by e => sizeOf e
decreasing_by all_goals (simp_wf; try subst_vars; try omega)

/-- parseFieldList of getast.go, processing field declarations in order. -/
def parseFieldList : List FieldDecl → Except Unit (List StructField)
  | [] => .ok []
  | (names, tag, ty) :: rest =>
    match parseField names tag ty with
    | .error u => .error u
    | .ok fs =>
      match parseFieldList rest with
      | .error u => .error u
      | .ok out => .ok (fs ++ out)
termination_by l => sizeOf l
decreasing_by all_goals (simp_wf; try omega)

/-- One iteration of the field loop of parseFieldList: one name or an
embedded field goes through tag resolution and the nil check; two or more
names take the inline multiple-declaration branch. -/
def parseField : List String → Option String → Expr → Except Unit (List StructField)
  | [nm], tag, ty => parseNamed nm tag ty
  | [], tag, ty => parseNamed (embedded ty) tag ty
  | names, _, ty => parseMulti names ty
termination_by names _ ty => sizeOf names + sizeOf ty + 2
decreasing_by all_goals (simp_wf; try omega)

/-- The single-name and embedded path of the field loop: tag resolution
first (a - tag skips the field before any element is built), then parseExpr,
dropping the field when the element is nil. -/
def parseNamed (nm : String) (tag : Option String) (ty : Expr) : Except Unit (List StructField)
  :=
  match tagStep nm tag with
  | none => .ok []
  | some ftag =>
    match parseExpr ty with
    | .error u => .error u
    | .ok none => .ok []
    | .ok (some el) => .ok [(ftag, nm, some el)]
termination_by sizeOf ty + 1
decreasing_by all_goals (simp_wf; try omega)

/-- The inline multiple-declaration branch of the field loop: one field per
name, FieldTag = FieldName = the name, parseExpr called once per name, and
no nil check on its result. -/
def parseMulti : List String → Expr → Except Unit (List StructField)
  | [], _ => .ok []
  | nm :: nms, ty =>
    match parseExpr ty with
    | .error u => .error u
    | .ok el =>
      match parseMulti nms ty with
      | .error u => .error u
      | .ok out => .ok ((nm, nm, el) :: out)
termination_by names ty => sizeOf names + sizeOf ty
decreasing_by all_goals (simp_wf; try omega)

end

/-- ast.TypeSpec, keeping the name and the type expression. -/
structure TypeSpec where
  name : String
  type : Expr
  deriving Repr

/-- GenElem of getast.go: a struct type yields a Ptr around a Struct with the
declared name and the parsed field list, dropped when the field list is
empty; every other spec type yields nil. -/
def GenElem (ts : TypeSpec) : Except Unit (Option Elem) :=
  match ts.type with
  | .structType fields =>
    match parseFieldList fields with
    | .error u => .error u
    | .ok fs =>
      if fs.length = 0 then .ok none
      else .ok (some (.ptr (some (.struct ts.name fs))))
  | _ => .ok none

/-- One ast.Spec inside an ast.GenDecl: a TypeSpec or anything else
(ValueSpec, ImportSpec). -/
inductive SpecNode where
  | typeSpec (ts : TypeSpec)
  | otherSpec
  deriving Repr

/-- One top-level ast.Decl: a GenDecl with its spec list, or anything else
(FuncDecl, ...). -/
inductive DeclBody where
  | genDecl (specs : List SpecNode)
  | otherDecl
  deriving Repr

/-- A top-level declaration with its external visibility.  Whether a
declaration is externally visible (exported) is a property of the host
language's identifier casing, outside the embedded functions; it is carried
here as a flag. -/
structure Decl where
  exported : Bool
  body : DeclBody
  deriving Repr

/-- ast.File, reduced to its declaration list. -/
structure File where
  decls : List Decl
  deriving Repr

/-- Modelled from the spec: ast.FileExports belongs to the Go standard
library, not to this repository's sources.  Per the spec the loader
"filters out non-exported elements" and "checks whether the tree contains
any externally visible top-level declaration"; we model it as keeping
exactly the externally visible declarations and reporting whether any
remain. -/
def fileExports (f : File) : File × Bool :=
  let kept := f.decls.filter (fun d => d.exported)
  (⟨kept⟩, !kept.isEmpty)

/-- The errors GetAST and GetElems can surface: a parser error, the
no-exports rejection, or a runtime panic escaping parseExpr. -/
inductive GoErr where
  | parseError
  | noExports
  | panicked
  deriving DecidableEq, Repr

/-- GetAST of getast.go.  The call into the external parser is the input:
either its error or the parsed file.  A parse failure is returned as is;
a file without exported declarations is replaced by the no-exports error. -/
def GetAST (parsed : Except Unit File) : Except GoErr File :=
  match parsed with
  | .error _ => .error .parseError
  | .ok f =>
    match fileExports f with
    | (f2, true) => .ok f2
    | (_, false) => .error .noExports

/-- The spec extraction of GetTypeSpecs: the TypeSpecs of one GenDecl. -/
def specTypeSpecs (specs : List SpecNode) : List TypeSpec :=
  specs.filterMap (fun s =>
    match s with
    | .typeSpec ts => some ts
    | .otherSpec => none)

/-- GetTypeSpecs of getast.go: every ast.TypeSpec of every GenDecl, in
declaration order. -/
def GetTypeSpecs (f : File) : List TypeSpec :=
  f.decls.foldr
    (fun d acc =>
      match d.body with
      | .genDecl specs => specTypeSpecs specs ++ acc
      | .otherDecl => acc)
    []

/-- The loop of GetElems: GenElem on each spec in order, keeping the non-nil
results. -/
def genElems : List TypeSpec → Except Unit (List Elem)
  | [] => .ok []
  | ts :: rest =>
    match GenElem ts with
    | .error u => .error u
    | .ok none => genElems rest
    | .ok (some el) =>
      match genElems rest with
      | .error u => .error u
      | .ok out => .ok (el :: out)

/-- GetElems of getast.go: load the file, collect its type specs, and run
GenElem over them; a load failure is returned with no element list. -/
def GetElems (parsed : Except Unit File) : Except GoErr (List Elem) :=
  match GetAST parsed with
  | .error u => .error u
  | .ok f =>
    match genElems (GetTypeSpecs f) with
    | .error _ => .error .panicked
    | .ok out => .ok out

/-- The type-support check of the field loop: a field type passes when the
element builder returns a non-nil element (and does not panic). -/
def passesTypeSupport (ty : Expr) : Bool :=
  match parseExpr ty with
  | .ok (some _) => true
  | _ => false

/-- The tag-exclusion check of the field loop: a field passes unless its
resolved tag is the exclusion marker. -/
def passesTagExclusion (nm : String) (tag : Option String) : Bool :=
  (tagStep nm tag).isSome

/-- Follows the spec's words: "fields.length equals the count of fields that
survived both tag-exclusion and type-support checks" — the number of
declared field entries, after multi-name expansion, that pass both the
tag-exclusion check and the type-support check.  Expanded names of a
multi-name entry carry no tag of their own. -/
def claimedSurvivorCount : List FieldDecl → Nat
  | [] => 0
  | (names, tag, ty) :: rest =>
    (match names with
     | [nm] => if passesTagExclusion nm tag && passesTypeSupport ty then 1 else 0
     | [] => if passesTagExclusion (embedded ty) tag && passesTypeSupport ty then 1 else 0
     | names =>
       (names.filter (fun nm => passesTagExclusion nm none && passesTypeSupport ty)).length)
    + claimedSurvivorCount rest

/-- A field declaration carrying two names that share one unsupported type
(as in: A, B chan int). -/
def multiNameChanField : FieldDecl := (["A", "B"], none, Expr.otherExpr)

/-- A struct declaration whose only entry is the two-name unsupported field. -/
def multiNameChanSpec : TypeSpec := ⟨"T", .structType [multiNameChanField]⟩

/-- A source file declaring only multiNameChanSpec, exported. -/
def multiNameChanFile : File := ⟨[⟨true, .genDecl [.typeSpec multiNameChanSpec]⟩]⟩

/-- A file whose only declaration is not externally visible. -/
def internalOnlyFile : File :=
  ⟨[⟨false, .genDecl [.typeSpec ⟨"t", .structType [(["A"], none, .ident "int")]⟩]⟩]⟩

/-- A file with one externally visible struct declaration. -/
def exportedFile : File :=
  ⟨[⟨true, .genDecl [.typeSpec ⟨"T", .structType [(["A"], none, .ident "int")]⟩]⟩]⟩

/-- The multi-name branch under a successfully built shared type: one field
per name, in order, with tag and name both equal to the name and the shared
build result as element. -/
theorem parseMulti_ok (names : List String) (ty : Expr) (e : Option Elem)
    (h : parseExpr ty = .ok e) :
    parseMulti names ty = .ok (names.map (fun nm => (nm, nm, e))) := by
  induction names with
  | nil => simp [parseMulti]
  | cons nm nms ih => simp [parseMulti, h, ih]

/-- The multi-name branch propagates a panic of the shared type. -/
theorem parseMulti_error (names : List String) (ty : Expr) (u : Unit)
    (h : parseExpr ty = .error u) (hne : names ≠ []) :
    parseMulti names ty = .error u := by
  cases names with
  | nil => exact absurd rfl hne
  | cons nm nms => simp [parseMulti, h]

/-- A field whose processing yields no fields and no panic leaves the
output of the enclosing field-list walk unchanged. -/
theorem parseFieldList_cons_skip (names : List String) (tag : Option String) (ty : Expr)
    (rest : List FieldDecl) (h : parseField names tag ty = .ok []) :
    parseFieldList ((names, tag, ty) :: rest) = parseFieldList rest := by
  rcases hr : parseFieldList rest with u | out <;> simp [parseFieldList, h, hr]

/-- Claim C1 (code bug): on a keyed-mapping type whose key is the string
identifier and whose value expression is not an identifier — which is how
the Go parser represents both the empty interface type and every composite
value type — the element builder does not return nil: it panics on the
unchecked type assertion.  The only map shape it accepts is the one whose
key and value are both the string identifier. -/
theorem c1_map_value_assertion_panics :
    parseExpr (.mapType (.ident "string") .interfaceType) = .error () ∧
    parseExpr (.mapType (.ident "string") (.arrayType (.ident "byte"))) = .error () ∧
    parseExpr (.mapType (.ident "string") (.ident "string")) = .ok (some (.base .mapStrStr)) ∧
    parseExpr (.mapType (.ident "string") (.ident "int")) = .ok none ∧
    parseExpr (.mapType (.ident "int") (.ident "string")) = .ok none := by
  refine ⟨?_, ?_, ?_, ?_, ?_⟩ <;> simp [parseExpr]

/-- Claim C2 counterexample: a sequence whose element type is the uint8
identifier is not special-cased; it builds Sequence(Base(uint8)), the very
shape the claim rules out, and not Base(bytes). -/
theorem c2_uint8_sequence_counterexample :
    parseExpr (.arrayType (.ident "uint8")) = .ok (some (.slice (some (.base .uint8)))) ∧
    parseExpr (.arrayType (.ident "uint8")) ≠ .ok (some (.base .bytes)) := by
  constructor
  · simp [parseExpr, identElem]
  · simp [parseExpr, identElem]

/-- Claim C2 as amended: only the element identifier literally spelled byte
is special-cased to Base(bytes); every other element identifier, uint8
included, yields a Sequence around the identifier's own element. -/
theorem c2_amended_literal_byte_only (n : String) (h : n ≠ "byte") :
    parseExpr (.arrayType (.ident "byte")) = .ok (some (.base .bytes)) ∧
    parseExpr (.arrayType (.ident n)) = .ok (some (.slice (some (identElem n)))) := by
  constructor
  · simp [parseExpr]
  · simp [parseExpr, h]

/-- Witness for the amended claim C2 at the concrete element type uint8. -/
theorem c2_amended_witness :
    parseExpr (.arrayType (.ident "byte")) = .ok (some (.base .bytes)) ∧
    parseExpr (.arrayType (.ident "uint8")) =
      .ok (some (.slice (some (identElem "uint8")))) :=
  c2_amended_literal_byte_only "uint8" (by decide)

/-- Claim C3 (code bug): on the multi-name expansion path the element
builder's result is appended without the nil check, so a declaration with
two names sharing an unsupported type reaches the output as a TypeModel
whose fields carry nil elements — even though the shared type builds to
nil. -/
theorem c3_multiname_nil_element_in_output :
    parseExpr Expr.otherExpr = .ok none ∧
    GetElems (.ok multiNameChanFile) =
      .ok [.ptr (some (.struct "T" [("A", "A", none), ("B", "B", none)]))] := by
  constructor
  · simp [parseExpr]
  · simp [GetElems, GetAST, fileExports, multiNameChanFile, GetTypeSpecs, specTypeSpecs,
      genElems, GenElem, multiNameChanSpec, multiNameChanField, parseFieldList, parseField,
      parseMulti, parseExpr]

/-- Claim C4 (code bug): the declaration with the two-name unsupported field
is accepted with a root of the claimed Optional(Aggregate(fields)) shape,
but its field list has two entries while zero expanded entries pass both
the tag-exclusion check and the type-support check — the multi-name path
skips both checks. -/
theorem c4_survivor_count_mismatch :
    GenElem multiNameChanSpec =
      .ok (some (.ptr (some (.struct "T" [("A", "A", none), ("B", "B", none)])))) ∧
    ([("A", "A", none), ("B", "B", none)] : List StructField).length = 2 ∧
    claimedSurvivorCount [multiNameChanField] = 0 := by
  refine ⟨?_, rfl, ?_⟩
  · simp [GenElem, multiNameChanSpec, multiNameChanField, parseFieldList, parseField,
      parseMulti, parseExpr]
  · simp [claimedSurvivorCount, multiNameChanField, passesTagExclusion, passesTypeSupport,
      parseExpr, tagStep]

/-- Claim C5 counterexample: a sequence whose element type is unsupported is
not itself unsupported; the builder returns a Sequence wrapping the nil
element. -/
theorem c5_failed_inner_counterexample :
    parseExpr Expr.otherExpr = .ok none ∧
    parseExpr (.arrayType .otherExpr) = .ok (some (.slice none)) ∧
    parseExpr (.arrayType .otherExpr) ≠ .ok none := by
  refine ⟨?_, ?_, ?_⟩ <;> simp [parseExpr]

/-- Claim C5 as amended: for every non-byte sequence the builder returns a
Sequence wrapping whatever the inner build produced — including the nil
marker when the inner type is unsupported — and propagates an inner panic;
it never turns a failed inner build into nil for the whole sequence. -/
theorem c5_amended_sequence_wraps_inner (elt : Expr) (h : elt ≠ .ident "byte") :
    parseExpr (.arrayType elt) = (parseExpr elt).map (fun r => some (.slice r)) := by
  cases elt with
  | ident n =>
    have hn : n ≠ "byte" := by
      intro hh
      exact h (by rw [hh])
    simp [parseExpr, hn, Except.map]
  | mapType k v =>
    rcases h' : parseExpr (.mapType k v) with u | inner <;> simp [parseExpr, h', Except.map]
  | arrayType e =>
    rcases h' : parseExpr (.arrayType e) with u | inner <;> simp [parseExpr, h', Except.map]
  | starExpr x =>
    rcases h' : parseExpr (.starExpr x) with u | inner <;> simp [parseExpr, h', Except.map]
  | structType fields =>
    rcases h' : parseExpr (.structType fields) with u | inner <;>
      simp [parseExpr, h', Except.map]
  | interfaceType => simp [parseExpr, Except.map]
  | otherExpr => simp [parseExpr, Except.map]

/-- Witness for the amended claim C5 at a concrete unsupported element type. -/
theorem c5_amended_witness :
    parseExpr (.arrayType .otherExpr) =
      (parseExpr Expr.otherExpr).map (fun r => some (.slice r)) :=
  c5_amended_sequence_wraps_inner .otherExpr (by intro hh; cases hh)

/-- Claim C6: a field-declaration entry with two or more names expands into
one field per name, in name order, with tag and name both equal to the name
and with the result of building the shared type expression as each field's
element; the entry's tag metadata does not appear in the result at all. -/
theorem c6_multiname_expansion (names : List String) (tag : Option String) (ty : Expr)
    (rest : List FieldDecl) (out : List StructField)
    (hlen : 2 ≤ names.length)
    (h : parseFieldList ((names, tag, ty) :: rest) = .ok out) :
    ∃ e restOut, parseExpr ty = .ok e ∧ parseFieldList rest = .ok restOut ∧
      out = names.map (fun nm => (nm, nm, e)) ++ restOut := by
  obtain ⟨a, names1, rfl⟩ : ∃ a l, names = a :: l := by
    cases names with
    | nil => simp at hlen
    | cons a l => exact ⟨a, l, rfl⟩
  obtain ⟨b, names2, rfl⟩ : ∃ b l, names1 = b :: l := by
    cases names1 with
    | nil => simp at hlen
    | cons b l => exact ⟨b, l, rfl⟩
  have hf : parseField (a :: b :: names2) tag ty = parseMulti (a :: b :: names2) ty := by
    simp [parseField]
  rcases hp : parseExpr ty with u | e
  · have hm := parseMulti_error (a :: b :: names2) ty u hp (by simp)
    simp [parseFieldList, hf, hm] at h
  · have hm := parseMulti_ok (a :: b :: names2) ty e hp
    rcases hr : parseFieldList rest with u | restOut
    · simp [parseFieldList, hf, hm, hr] at h
    · refine ⟨e, restOut, rfl, rfl, ?_⟩
      simp only [parseFieldList, hf, hm, hr] at h
      simp only [Except.ok.injEq] at h
      rw [← h]

/-- Witness for claim C6: two names sharing the int type, with a tag
present, give two independent fields named A and B. -/
theorem c6_witness :
    ∃ e restOut, parseExpr (.ident "int") = .ok e ∧
      parseFieldList ([] : List FieldDecl) = .ok restOut ∧
      ([("A", "A", some (Elem.base .int)), ("B", "B", some (Elem.base .int))] :
          List StructField) =
        ["A", "B"].map (fun nm => (nm, nm, e)) ++ restOut :=
  c6_multiname_expansion ["A", "B"] (some "x") (.ident "int") [] _ (by decide)
    (by simp [parseFieldList, parseField, parseMulti, parseExpr, identElem])

/-- Claim C7: a parsed file none of whose declarations is externally
visible is rejected whole with the no-exports error (so no element list is
produced), while a parsed file with at least one externally visible
declaration never raises that error. -/
theorem c7_no_exports_gate (f : File) :
    ((∀ d ∈ f.decls, d.exported = false) → GetElems (.ok f) = .error .noExports) ∧
    ((∃ d ∈ f.decls, d.exported = true) → GetElems (.ok f) ≠ .error .noExports) := by
  constructor
  · intro hall
    have hk : f.decls.filter (fun d => d.exported) = [] := by
      rw [List.filter_eq_nil_iff]
      intro d hd
      simp [hall d hd]
    simp [GetElems, GetAST, fileExports, hk]
  · rintro ⟨d, hd, hexp⟩
    have hk : f.decls.filter (fun d => d.exported) ≠ [] := by
      intro hnil
      have hmem : d ∈ f.decls.filter (fun d => d.exported) :=
        List.mem_filter.mpr ⟨hd, by simp [hexp]⟩
      rw [hnil] at hmem
      cases hmem
    have hke : (f.decls.filter (fun d => d.exported)).isEmpty = false := by
      cases hh : (f.decls.filter (fun d => d.exported)).isEmpty
      · rfl
      · exact absurd (List.isEmpty_iff.mp hh) hk
    simp only [GetElems, GetAST, fileExports, hke]
    rcases hg : genElems (GetTypeSpecs ⟨f.decls.filter (fun d => d.exported)⟩) with u | out <;>
      simp [hg]

/-- Witness for claim C7: a file whose single declaration is internal is
rejected with the no-exports error; a file with an exported declaration is
not. -/
theorem c7_witness :
    GetElems (.ok internalOnlyFile) = .error .noExports ∧
    GetElems (.ok exportedFile) ≠ .error .noExports := by
  constructor
  · exact (c7_no_exports_gate internalOnlyFile).1 (by
      intro d hd
      simp [internalOnlyFile] at hd
      rw [hd])
  · exact (c7_no_exports_gate exportedFile).2
      ⟨⟨true, .genDecl [.typeSpec ⟨"T", .structType [(["A"], none, .ident "int")]⟩]⟩,
        by simp [exportedFile], rfl⟩

/-- Claim C8: a single-named or embedded field whose tag value is exactly
the exclusion marker leaves the output unchanged and never invokes the
element builder (the skipped type may even be one that panics); an absent
or empty tag value makes the output key equal the source name; any other
non-empty value becomes the output key. -/
theorem c8_tag_resolution (nm v : String) (t : Option String) (ty bad : Expr) (e : Elem)
    (rest : List FieldDecl)
    (hv1 : v ≠ "") (hv2 : v ≠ "-") (ht : t = none ∨ t = some "")
    (he : parseExpr ty = .ok (some e)) :
    parseFieldList (([nm], some "-", bad) :: rest) = parseFieldList rest ∧
    parseFieldList (([], some "-", bad) :: rest) = parseFieldList rest ∧
    parseField [nm] t ty = .ok [(nm, nm, some e)] ∧
    parseField [nm] (some v) ty = .ok [(v, nm, some e)] ∧
    parseField [] t ty = .ok [(embedded ty, embedded ty, some e)] ∧
    parseField [] (some v) ty = .ok [(v, embedded ty, some e)] := by
  have hskip1 : parseField [nm] (some "-") bad = .ok [] := by
    simp [parseField, parseNamed, tagStep]
  have hskip0 : parseField ([] : List String) (some "-") bad = .ok [] := by
    simp [parseField, parseNamed, tagStep]
  refine ⟨parseFieldList_cons_skip _ _ _ _ hskip1, parseFieldList_cons_skip _ _ _ _ hskip0,
    ?_, ?_, ?_, ?_⟩
  · rcases ht with rfl | rfl <;> simp [parseField, parseNamed, tagStep, he]
  · simp [parseField, parseNamed, tagStep, hv1, hv2, he]
  · rcases ht with rfl | rfl <;> simp [parseField, parseNamed, tagStep, he]
  · simp [parseField, parseNamed, tagStep, hv1, hv2, he]

/-- Witness for claim C8 at concrete fields; the excluded field's type is
the panicking map shape, showing the builder is really never invoked. -/
theorem c8_witness :
    parseFieldList [(["A"], some "-", Expr.mapType (.ident "string") .interfaceType)] =
      parseFieldList [] ∧
    parseFieldList [(([] : List String), some "-",
        Expr.mapType (.ident "string") .interfaceType)] =
      parseFieldList [] ∧
    parseField ["A"] none (.ident "int") = .ok [("A", "A", some (.base .int))] ∧
    parseField ["A"] (some "key") (.ident "int") = .ok [("key", "A", some (.base .int))] ∧
    parseField [] none (.ident "int") =
      .ok [(embedded (.ident "int"), embedded (.ident "int"), some (.base .int))] ∧
    parseField [] (some "key") (.ident "int") =
      .ok [("key", embedded (.ident "int"), some (.base .int))] :=
  c8_tag_resolution "A" "key" none (.ident "int")
    (.mapType (.ident "string") .interfaceType) (.base .int) []
    (by decide) (by decide) (Or.inl rfl) (by simp [parseExpr, identElem])

/-- Claim C9 counterexample: an embedded field written as a double
indirection of a named type derives that type's bare name — two levels are
unwrapped, where the claim allows at most one (after which the expression
is still not a bare identifier, so the claim's fallback would apply). -/
theorem c9_double_star_counterexample :
    embedded (.starExpr (.starExpr (.ident "T"))) = "T" ∧
    parseFieldList [([], none, .starExpr (.starExpr (.ident "T")))] =
      .ok [("T", "T", some (.ptr (some (.ptr (some (.baseIdent "T"))))))] := by
  constructor
  · rfl
  · simp [parseFieldList, parseField, parseNamed, tagStep, parseExpr, identElem, embedded]

/-- Claim C9 as amended: the embedded-name derivation unwraps arbitrarily
many levels of indirection to reach a named identifier, and when the fully
unwrapped expression is not an identifier it falls back deterministically
to the empty name. -/
theorem c9_amended_unbounded_unwrap (k : Nat) (n : String) :
    embedded (Expr.starExpr^[k] (.ident n)) = n ∧
    embedded (Expr.starExpr^[k] Expr.otherExpr) = "" := by
  induction k with
  | zero => exact ⟨rfl, rfl⟩
  | succ k ih =>
    rw [Function.iterate_succ_apply', Function.iterate_succ_apply']
    refine ⟨?_, ?_⟩
    · simp only [embedded]
      exact ih.1
    · simp only [embedded]
      exact ih.2

/-- Claim C10: an optional/indirection around an unsupported inner type is
a non-nil Optional wrapping the nil marker, so a single-named field of that
pointer type passes the support check and survives into the output. -/
theorem c10_pointer_to_unsupported_survives (t : Expr) (nm : String) (rest : List FieldDecl)
    (h : parseExpr t = .ok none) :
    parseExpr (.starExpr t) = .ok (some (.ptr none)) ∧
    parseFieldList (([nm], none, .starExpr t) :: rest) =
      (parseFieldList rest).map (fun out => (nm, nm, some (Elem.ptr none)) :: out) := by
  have hp : parseExpr (.starExpr t) = .ok (some (.ptr none)) := by simp [parseExpr, h]
  refine ⟨hp, ?_⟩
  have hf : parseField [nm] none (.starExpr t) = .ok [(nm, nm, some (.ptr none))] := by
    simp [parseField, parseNamed, tagStep, hp]
  rcases hr : parseFieldList rest with u | out <;>
    simp [parseFieldList, hf, hr, Except.map]

/-- Witness for claim C10 at a concrete unsupported pointee. -/
theorem c10_witness :
    parseExpr (.starExpr .otherExpr) = .ok (some (.ptr none)) ∧
    parseFieldList [(["A"], none, .starExpr .otherExpr)] =
      (parseFieldList []).map (fun out => ("A", "A", some (Elem.ptr none)) :: out) :=
  c10_pointer_to_unsupported_survives .otherExpr "A" [] (by simp [parseExpr])

end Truepack
